import Mathlib

/-!
Shallow embedding of the transcription orchestration core implemented in
`services/api/core/transcription.py` (Sarvam AI speech-to-text service).

The embedding covers: the chunk-plan geometry of `transcribe_audio_chunked`,
the overlap merger `merge_overlapping_chunks` with its helper
`_text_similarity`, the SDK-response normalizer `transform_sarvam_sdk_response`,
`format_timestamp`, and the control flow of `transcribe_audio`,
`transcribe_audio_chunked` and `transcribe_audio_batch`.  External effects
(ffmpeg extraction, the Sarvam provider, the filesystem, wall-clock time)
are modelled as explicit oracles, and the chunked pipeline is modelled as a
pure function that also returns the final state of the chunk-artifact
filesystem and the number of provider jobs submitted.  Durations and
timestamps are modelled as rationals.
-/

namespace Transcription

/-- Python `int(q)` applied to a float/rational: truncation toward zero. -/
def pyInt (q : ℚ) : ℤ := if q < 0 then -⌊-q⌋ else ⌊q⌋

/-- Source constant `SARVAM_BATCH_MAX_DURATION = 3300` (55 minutes). -/
def SARVAM_BATCH_MAX_DURATION : ℚ := 3300

/-- Source constant `CHUNKING_THRESHOLD = 3600` (only chunk if audio > 1 hour). -/
def CHUNKING_THRESHOLD : ℚ := 3600

/-- Source constant `CHUNK_OVERLAP = 30` (seconds of overlap between chunks). -/
def CHUNK_OVERLAP : ℚ := 30

/-- Source constant `MIN_SEGMENT_DURATION = 0.5`. -/
def MIN_SEGMENT_DURATION : ℚ := 1/2

/-- `num_chunks = int((total_duration - CHUNK_OVERLAP) / (chunk_duration - CHUNK_OVERLAP)) + 1`
from `transcribe_audio_chunked` (with `chunk_duration = SARVAM_BATCH_MAX_DURATION`). -/
def num_chunks (total_duration : ℚ) : ℕ :=
  (pyInt ((total_duration - CHUNK_OVERLAP) /
    (SARVAM_BATCH_MAX_DURATION - CHUNK_OVERLAP))).toNat + 1

/-- `chunk_start = i * (chunk_duration - CHUNK_OVERLAP)` from the chunk loop. -/
def chunkStart (i : ℕ) : ℚ := (i : ℚ) * (SARVAM_BATCH_MAX_DURATION - CHUNK_OVERLAP)

/-- End of the audio actually contained in chunk `i`: ffmpeg is asked for
`chunk_duration + CHUNK_OVERLAP` seconds starting at `chunk_start`, and the
extracted audio is cut off at the end of the source file, so the window is
clamped to `total_duration`. -/
def windowEnd (total_duration : ℚ) (i : ℕ) : ℚ :=
  min (chunkStart i + (SARVAM_BATCH_MAX_DURATION + CHUNK_OVERLAP)) total_duration

/-- An audio window of the plan: start time and duration in seconds. -/
structure AudioWindow where
  startSeconds : ℚ
  durationSeconds : ℚ
deriving DecidableEq

/-- The sequence of audio windows the pipeline processes: `transcribe_audio`
dispatches on `duration <= CHUNKING_THRESHOLD` (single window covering the
whole file, processed at offset 0) and otherwise `transcribe_audio_chunked`
extracts one window per chunk index. -/
def plan (total_duration : ℚ) : List AudioWindow :=
  if total_duration ≤ CHUNKING_THRESHOLD then [⟨0, total_duration⟩]
  else (List.range (num_chunks total_duration)).map
    (fun i => ⟨chunkStart i, windowEnd total_duration i - chunkStart i⟩)

/-- The `offset` argument passed to `transcribe_audio_batch` for each
submitted provider job (`offset=0` in the single-job branch, `offset=chunk_start`
in the chunked branch). -/
def jobOffsets (total_duration : ℚ) : List ℚ :=
  if total_duration ≤ CHUNKING_THRESHOLD then [0]
  else (List.range (num_chunks total_duration)).map (fun i => chunkStart i)

/-- Python integer floor division (`//`), used by `format_timestamp`. -/
def pyFloorDiv (a b : ℤ) : ℤ := Int.fdiv a b

/-- Python integer modulo (`%`), used by `format_timestamp`. -/
def pyMod (a b : ℤ) : ℤ := Int.fmod a b

/-- Zero-padding to two digits, modelling the Python 02d format for the
non-negative values produced by `format_timestamp`. -/
def pad2 (n : ℤ) : String :=
  let s := toString n
  if s.length < 2 then "0" ++ s else s

/-- `format_timestamp`: convert seconds to an `HH:MM:SS` string. -/
def format_timestamp (seconds : ℚ) : String :=
  let total_seconds := pyInt seconds
  let hours := pyFloorDiv total_seconds 3600
  let minutes := pyFloorDiv (pyMod total_seconds 3600) 60
  let secs := pyMod total_seconds 60
  pad2 hours ++ ":" ++ pad2 minutes ++ ":" ++ pad2 secs

/-- A canonical transcript segment, as built by the normalizer and consumed
by the merger.  The source stores these as dicts with keys `id`, `speaker`,
`timestamp`, `text`, `start`, `end`; the field `stop` models the key `end`
(a Lean keyword). -/
structure Segment where
  id : String
  speaker : String
  timestamp : String
  text : String
  start : ℚ
  stop : ℚ
deriving DecidableEq

/-- ASCII lower-casing of one character, modelling `str.lower()` for the
ASCII range (like Lean's own `Char.toLower`, implemented directly over
character codes so that it evaluates in the kernel). -/
def lowerChar (c : Char) : Char :=
  if 65 ≤ c.toNat ∧ c.toNat ≤ 90 then Char.ofNat (c.toNat + 32) else c

/-- Splitting a character list on whitespace runs, dropping empty pieces:
the behaviour of Python `str.split()` with no arguments.  The accumulator
holds the current in-progress word, reversed. -/
def splitWsAux : List Char → List Char → List String
  | [], cur => if cur = [] then [] else [String.mk cur.reverse]
  | c :: rest, cur =>
      if c.isWhitespace then
        if cur = [] then splitWsAux rest []
        else String.mk cur.reverse :: splitWsAux rest []
      else splitWsAux rest (c :: cur)

/-- Python `text.lower().split()`: the list of lower-cased
whitespace-separated tokens of a string. -/
def pyTokens (text : String) : List String :=
  splitWsAux (text.data.map lowerChar) []

/-- The token set `set(text.lower().split())` used by `_text_similarity`. -/
def tokenSet (text : String) : Finset String := (pyTokens text).toFinset

/-- Python `str.strip()`: drop leading and trailing whitespace. -/
def pyStrip (s : String) : String :=
  String.mk (((s.data.dropWhile Char.isWhitespace).reverse.dropWhile
    Char.isWhitespace).reverse)

/-- Python `speaker_id.replace("speaker", "Speaker")`: replace every
occurrence of the lower-case word, scanning left to right. -/
def replaceSpeakerChars : List Char → List Char
  | 's' :: 'p' :: 'e' :: 'a' :: 'k' :: 'e' :: 'r' :: rest =>
      'S' :: 'p' :: 'e' :: 'a' :: 'k' :: 'e' :: 'r' :: replaceSpeakerChars rest
  | c :: rest => c :: replaceSpeakerChars rest
  | [] => []

/-- `speaker_id.replace("speaker", "Speaker").strip()` from the normalizer. -/
def friendlySpeaker (speaker_id : String) : String :=
  pyStrip (String.mk (replaceSpeakerChars speaker_id.data))

/-- `_text_similarity`: word-set similarity used for deduplication in
overlap regions. -/
def text_similarity (text1 text2 : String) : ℚ :=
  let words1 := tokenSet text1
  let words2 := tokenSet text2
  if words1 = ∅ ∨ words2 = ∅ then 0
  else if (words1 ∪ words2) = ∅ then 0
  else ((words1 ∩ words2).card : ℚ) / ((words1 ∪ words2).card : ℚ)

/-- `merged[-1]["end"] if merged else 0`: end time of the last merged
segment, or 0 when nothing has been merged. -/
def lastEnd (merged : List Segment) : ℚ :=
  match merged.getLast? with
  | some s => s.stop
  | none => 0

/-- `merged[-3:]`, the last (up to) 3 already-merged segments, in the order
in which the duplicate check iterates over them (`reversed`). -/
def lastThree (merged : List Segment) : List Segment := merged.reverse.take 3

/-- One step of the duplicate-filtering loop of `merge_overlapping_chunks`:
a segment of a subsequent chunk is dropped when it starts inside the overlap
window (1 second of buffer) and its text is more than 0.8-similar to one of
the last 3 merged segments; otherwise it is appended. -/
def dedupStep (overlap_start : ℚ) (acc : List Segment) (seg : Segment) : List Segment :=
  if seg.start < overlap_start + 1 ∧
      (lastThree acc).any (fun prev => text_similarity seg.text prev.text > 8/10) then
    acc
  else acc ++ [seg]

/-- Processing of one subsequent chunk inside `merge_overlapping_chunks`:
`overlap_start` is computed once from the last merged segment, then every
segment of the chunk goes through `dedupStep`. -/
def processChunk (merged : List Segment) (chunk_segments : List Segment) : List Segment :=
  let overlap_start := lastEnd merged - CHUNK_OVERLAP
  chunk_segments.foldl (dedupStep overlap_start) merged

/-- State of the speaker-coalescing pass of `merge_overlapping_chunks`:
`final_segments`, `current_speaker`, `current_texts`, `current_start`,
`current_end`.  In the source `current_start`/`current_end` start as `None`;
they are only read after being set, so they are modelled with a default. -/
structure CoalesceState where
  final_segments : List Segment
  current_speaker : Option String
  current_texts : List String
  current_start : ℚ
  current_end : ℚ

/-- The segment flushed for a finished same-speaker run (`speaker sp`). -/
def flushedSegment (st : CoalesceState) (sp : String) : Segment :=
  ⟨toString (st.final_segments.length + 1), sp, format_timestamp st.current_start,
    String.intercalate (" ") st.current_texts, st.current_start, st.current_end⟩

/-- Appending the pending run to `final_segments`, guarded by the Python
truthiness test `if current_speaker:` (false for `None` and for `""`). -/
def flushPending (st : CoalesceState) : List Segment :=
  match st.current_speaker with
  | some sp => if sp ≠ "" then st.final_segments ++ [flushedSegment st sp] else st.final_segments
  | none => st.final_segments

/-- One iteration of the coalescing loop (`for seg in merged`). -/
def coalesceStep (st : CoalesceState) (seg : Segment) : CoalesceState :=
  if some seg.speaker = st.current_speaker then
    { st with current_texts := st.current_texts ++ [seg.text], current_end := seg.stop }
  else
    { final_segments := flushPending st
      current_speaker := some seg.speaker
      current_texts := [seg.text]
      current_start := seg.start
      current_end := seg.stop }

/-- The full coalescing pass: merge consecutive segments of the same speaker,
then flush the trailing run. -/
def coalesce (merged : List Segment) : List Segment :=
  flushPending (merged.foldl coalesceStep ⟨[], none, [], 0, 0⟩)

/-- The final renumbering pass: `seg["id"] = str(idx)` for `idx = 1, 2, ...`. -/
def renumber (segs : List Segment) : List Segment :=
  segs.enum.map (fun p => { p.2 with id := toString (p.1 + 1) })

/-- `merge_overlapping_chunks`: the first chunk is taken verbatim; each
subsequent chunk goes through overlap deduplication; then consecutive
same-speaker segments are coalesced and the result is renumbered.  A
single-chunk input is returned as-is. -/
def merge_overlapping_chunks : List (List Segment) → List Segment
  | [] => []
  | [c] => c
  | c :: cs => renumber (coalesce (cs.foldl processChunk c))

/-- One entry of the SDK result's `diarized_transcript.entries` list, with
the `.get` defaults of the source. -/
structure DiarizedEntry where
  speaker_id : String := "speaker 1"
  transcript : String := ""
  start_time_seconds : ℚ := 0
  end_time_seconds : ℚ := 0
deriving DecidableEq

/-- The shape of an SDK result dict as consumed by
`transform_sarvam_sdk_response`: the `diarized_transcript.entries` list
(empty when the key is missing or not a dict/list) and the top-level
`transcript` string (empty when missing). -/
structure SdkResult where
  entries : List DiarizedEntry
  transcript : String
deriving DecidableEq

/-- The body of the per-entry loop of `transform_sarvam_sdk_response`:
`idx` is the 1-based `enumerate` index (assigned before any skipping). -/
def transformEntry (offset : ℚ) (idx : ℕ) (entry : DiarizedEntry) : List Segment :=
  let text := pyStrip entry.transcript
  let start_time := entry.start_time_seconds + offset
  let end_time := entry.end_time_seconds + offset
  if text = "" ∨ (end_time - start_time) < MIN_SEGMENT_DURATION then []
  else
    [⟨toString idx, friendlySpeaker entry.speaker_id, format_timestamp start_time,
      text, start_time, end_time⟩]

/-- `transform_sarvam_sdk_response`: turn an SDK batch result into canonical
segments, adding `offset` to all timestamps and dropping empty or too-short
entries; with no diarized entries, fall back to a single approximate segment
over the plain transcript. -/
def transform_sarvam_sdk_response (sdk_result : SdkResult) (offset : ℚ) : List Segment :=
  if sdk_result.entries = [] then
    if sdk_result.transcript ≠ "" then
      [⟨"1", "Speaker 1", format_timestamp offset, sdk_result.transcript, offset, offset + 10⟩]
    else []
  else
    (sdk_result.entries.enum.map
      (fun p => transformEntry offset (p.1 + 1) p.2)).flatten

/-- Lookup in a string-keyed dict with a default, modelling Python
`d.get(key, default)`. -/
def pyGet (fields : List (String × String)) (key default : String) : String :=
  match fields.find? (fun p => p.1 = key) with
  | some p => p.2
  | none => default

/-- Printable form of a failed-file dict, modelling Python `str(failed_file)`
(the exact rendering is irrelevant to the claims; only its non-emptiness
matters, and `str` of a dict always starts with a brace). -/
def pyStrDict (fields : List (String × String)) : String :=
  "dict(" ++ String.intercalate (", ") (fields.map (fun p => p.1 ++ "=" ++ p.2)) ++ ")"

/-- Where an exception thrown by the provider SDK interrupts
`transcribe_audio_batch` before polling starts. -/
inductive RaiseStage where
  | atCreate
  | atUpload
  | atStart
deriving DecidableEq

/-- Outcome of the result-extraction phase after the poll loop saw
`COMPLETED`: `get_file_results` raises, or reports no successful file
(with the list of failed-file dicts), or yields an effective result dict
for the transform (after the optional output download). -/
inductive FetchOutcome where
  | fetchRaises (msg : String)
  | noSuccess (failedFiles : List (List (String × String)))
  | success (result : SdkResult)
deriving DecidableEq

/-- Oracle describing how one `transcribe_audio_batch` call unfolds.  The
`pre` lists carry the elapsed wall-clock seconds observed at each poll that
saw a recognized in-progress state (each such poll emits a progress event). -/
inductive BatchScenario where
  | earlyRaise (stage : RaiseStage) (msg : String)
  | pollFailed (pre : List ℚ)
  | pollTimeout (pre : List ℚ) (elapsed : ℚ) (pollCount : ℕ)
  | stuck (pre : List ℚ) (finalState : String)
  | completes (pre : List ℚ) (fetch : FetchOutcome)
deriving DecidableEq

/-- Return value of one `transcribe_audio_batch` call under a scenario:
the `(success, message, segments)` triple.  Every internal exception of the
source function is caught by its own `try`/`except`, so the model is total. -/
def batchResult (scn : BatchScenario) (offset : ℚ) : Bool × String × Option (List Segment) :=
  match scn with
  | .earlyRaise _ msg => (false, "Batch API error: " ++ msg, none)
  | .pollFailed _ => (false, "Batch job failed", none)
  | .pollTimeout _ elapsed pollCount =>
      (false, "Transcription timed out after " ++ toString (pyInt elapsed) ++ "s (" ++
        toString pollCount ++ " polls)", none)
  | .stuck _ finalState => (false, "Job stuck in " ++ finalState ++ " state", none)
  | .completes _ fetch =>
      match fetch with
      | .fetchRaises msg => (false, "Failed to extract results: " ++ msg, none)
      | .noSuccess failedFiles =>
          match failedFiles with
          | [] => (false, "No successful transcriptions", none)
          | f :: _ => (false, pyGet f ("error_message") (pyStrDict f), none)
      | .success result =>
          (true, "Transcription successful", some (transform_sarvam_sdk_response result offset))

/-- Progress value of the event emitted by a poll that saw an in-progress
state after `elapsed` seconds: `40 + min(40, int(elapsed / 10))`. -/
def pollProgress (elapsed : ℚ) : ℤ := 40 + min 40 (pyInt (elapsed / 10))

/-- The five status events `transcribe_audio_batch` emits before polling. -/
def initialEvents : List (String × ℤ) :=
  [("initializing", 5), ("uploading", 10), ("uploading", 20),
   ("processing", 30), ("processing", 40)]

/-- The elapsed-time list of a scenario's recognized in-progress polls. -/
def preOf : BatchScenario → List ℚ
  | .earlyRaise _ _ => []
  | .pollFailed pre => pre
  | .pollTimeout pre _ _ => pre
  | .stuck pre _ => pre
  | .completes pre _ => pre

/-- The `(step, progressPercent)` sequence emitted through the status
callback by one `transcribe_audio_batch` call under a scenario. -/
def batchEvents : BatchScenario → List (String × ℤ)
  | .earlyRaise stage _ =>
      match stage with
      | .atCreate => initialEvents.take 2
      | .atUpload => initialEvents.take 3
      | .atStart => initialEvents.take 4
  | .pollFailed pre => initialEvents ++ pre.map (fun e => ("processing", pollProgress e))
  | .pollTimeout pre _ _ => initialEvents ++ pre.map (fun e => ("processing", pollProgress e))
  | .stuck pre _ => initialEvents ++ pre.map (fun e => ("processing", pollProgress e))
  | .completes pre fetch =>
      initialEvents ++ pre.map (fun e => ("processing", pollProgress e)) ++
        [("finalizing", 85)] ++
        (match fetch with
         | .fetchRaises _ => []
         | .noSuccess _ => []
         | .success _ => [("finalizing", 90), ("completed", 100)])

/-- State of the chunk-artifact filesystem: the chunk `.wav` files present
in the chunks directory, and whether the directory itself exists. -/
structure FS where
  files : List String
  dirExists : Bool
deriving DecidableEq

/-- The filesystem state with every chunk artifact removed. -/
def cleanFS : FS := ⟨[], false⟩

/-- The cleanup performed by `transcribe_audio_chunked` (unlink every
`*.wav` in the chunks directory, then remove the directory). -/
def cleanupFS (_fs : FS) : FS := cleanFS

/-- Zero-padding to four digits, modelling the Python 04d format. -/
def pad4 (i : ℕ) : String :=
  let s := toString i
  String.mk (List.replicate (4 - s.length) '0') ++ s

/-- The chunk artifact file name: the word chunk, the 04d-padded index,
and the wav extension. -/
def chunkFileName (i : ℕ) : String := "chunk_" ++ pad4 i ++ ".wav"

/-- Oracle describing what happens at chunk `i` of the loop of
`transcribe_audio_chunked`: ffmpeg extraction fails with an error message,
or an exception is raised during the iteration (e.g. by the status
callback), or extraction succeeds and the chunk's batch call follows the
given scenario. -/
inductive ChunkOutcome where
  | extractFail (err : String)
  | raised (msg : String)
  | run (scn : BatchScenario)
deriving DecidableEq

/-- Result of the chunked pipeline: a returned `(success, message,
segments)` triple, or an exception propagating out. -/
inductive RunOutcome where
  | ret (ok : Bool) (msg : String) (segments : Option (List Segment))
  | exn (msg : String)
deriving DecidableEq

/-- The chunk loop of `transcribe_audio_chunked`, iterating over the chunk
indices: threads the chunk filesystem and a count of submitted provider
jobs, and stops early on a failure return or a raised exception.  `inl`
carries an early outcome, `inr` the collected per-chunk segment lists. -/
def chunkLoop (oc : ℕ → ChunkOutcome) :
    List ℕ → FS → List (List Segment) → ℕ →
      (Sum RunOutcome (List (List Segment))) × FS × ℕ
  | [], fs, acc, jobs => (Sum.inr acc, fs, jobs)
  | i :: rest, fs, acc, jobs =>
    match oc i with
    | .raised msg => (Sum.inl (.exn msg), fs, jobs)
    | .extractFail err =>
        (Sum.inl (.ret false ("Failed to extract chunk " ++ toString i ++ ": " ++ err) none),
          fs, jobs)
    | .run scn =>
        let fs1 : FS := ⟨fs.files ++ [chunkFileName i], fs.dirExists⟩
        let r := batchResult scn (chunkStart i)
        if r.1 then
          let acc1 := match r.2.2 with
            | some segs => if segs ≠ [] then acc ++ [segs] else acc
            | none => acc
          chunkLoop oc rest fs1 acc1 (jobs + 1)
        else
          (Sum.inl (.ret false ("Failed to transcribe chunk " ++ toString i ++ ": " ++ r.2.1) none),
            fs1, jobs + 1)

/-- `transcribe_audio_chunked`, as a function of the total duration and the
per-chunk oracle: returns the outcome, the final chunk-filesystem state and
the number of provider jobs submitted.  The `except` branch cleans up and
re-raises; the success path cleans up before merging; the early failure
returns leave the filesystem as-is. -/
def transcribe_audio_chunked (total_duration : ℚ) (oc : ℕ → ChunkOutcome) :
    RunOutcome × FS × ℕ :=
  let nc := num_chunks total_duration
  match chunkLoop oc (List.range nc) ⟨[], true⟩ [] 0 with
  | (Sum.inl (.exn msg), fs, jobs) => (.exn msg, cleanupFS fs, jobs)
  | (Sum.inl out, fs, jobs) => (out, fs, jobs)
  | (Sum.inr acc, fs, jobs) =>
      let fs1 := cleanupFS fs
      if acc = [] then
        (.ret false ("No segments generated from chunked transcription") none, fs1, jobs)
      else
        (.ret true ("Transcribed " ++ toString nc ++ " chunks successfully")
          (some (merge_overlapping_chunks acc)), fs1, jobs)

/-- `transcribe_audio`: the public entry point, as a function of the
environment oracles (API key present, file exists, probed duration) and the
provider oracles of both branches.  Its body is one big `try`/`except`, so
the model is a total function returning the `(success, message, segments)`
triple. -/
def transcribe_audio (hasKey fileExists : Bool) (pathStr : String)
    (duration : Option ℚ) (scn : BatchScenario) (oc : ℕ → ChunkOutcome) :
    Bool × String × Option (List Segment) :=
  if ¬hasKey then
    (false, "Transcription failed: SARVAM_API_KEY environment variable not set", none)
  else if ¬fileExists then
    (false, "Audio file not found: " ++ pathStr, none)
  else
    match duration with
    | none => (false, "Failed to get audio duration", none)
    | some d =>
        if d ≤ CHUNKING_THRESHOLD then batchResult scn 0
        else
          match transcribe_audio_chunked d oc with
          | (.ret ok msg segs, _, _) => (ok, msg, segs)
          | (.exn msg, _, _) => (false, "Transcription failed: " ++ msg, none)

/-- The chunk-progress event emitted before transcribing chunk `i`:
`10 + int((i / num_chunks) * 80)`. -/
def chunkProgress (i nc : ℕ) : ℤ := 10 + pyInt (((i : ℚ) / (nc : ℚ)) * 80)

/-- The status events emitted by the chunk loop of
`transcribe_audio_chunked` from chunk `i` on (extraction failures return
before the chunk's progress event; a raised exception is modelled as
occurring at the start of the iteration). -/
def chunkLoopEvents (oc : ℕ → ChunkOutcome) (nc : ℕ) :
    List ℕ → Bool × List (String × ℤ)
  | [] => (true, [])
  | i :: rest =>
    match oc i with
    | .raised _ => (false, [])
    | .extractFail _ => (false, [])
    | .run scn =>
        let evts := [("processing", chunkProgress i nc)] ++ batchEvents scn
        if (batchResult scn (chunkStart i)).1 then
          let r := chunkLoopEvents oc nc rest
          (r.1, evts ++ r.2)
        else (false, evts)

/-- Whether the chunk loop collects at least one non-empty segment list
(determines whether the merge/completion events are emitted). -/
def chunkLoopHasSegments (oc : ℕ → ChunkOutcome) : List ℕ → Bool
  | [] => false
  | i :: rest =>
    match oc i with
    | .raised _ => false
    | .extractFail _ => false
    | .run scn =>
        let r := batchResult scn (chunkStart i)
        if r.1 then
          (match r.2.2 with
           | some segs => segs ≠ []
           | none => false) || chunkLoopHasSegments oc rest
        else false

/-- The status events emitted by one `transcribe_audio_chunked` run. -/
def chunkedEvents (total_duration : ℚ) (oc : ℕ → ChunkOutcome) : List (String × ℤ) :=
  let nc := num_chunks total_duration
  let idxs := List.range nc
  let loop := chunkLoopEvents oc nc idxs
  [("chunking", 10)] ++ loop.2 ++
    (if loop.1 ∧ chunkLoopHasSegments oc idxs then
      [("finalizing", 90), ("completed", 100)]
    else [])

/-- The status events emitted by one full `transcribe_audio` run. -/
def transcribe_audio_events (hasKey fileExists : Bool) (duration : Option ℚ)
    (scn : BatchScenario) (oc : ℕ → ChunkOutcome) : List (String × ℤ) :=
  if ¬hasKey then []
  else if ¬fileExists then []
  else
    match duration with
    | none => []
    | some d =>
        [("analyzing", 5)] ++
          (if d ≤ CHUNKING_THRESHOLD then [("uploading", 10)] ++ batchEvents scn
           else [("chunking", 5)] ++ chunkedEvents d oc)

/-- Word-set Jaccard similarity as the specification words it:
`|intersection| / |union|` over lower-cased whitespace-split tokens
(with no special-casing of empty token sets; in ℚ a division by zero is 0). -/
def jaccard (a b : String) : ℚ :=
  ((tokenSet a ∩ tokenSet b).card : ℚ) / ((tokenSet a ∪ tokenSet b).card : ℚ)

/-- The per-segment dedup decision as the specification words it: a segment
is discarded exactly when it starts before `overlap_start + 1` and its text
has Jaccard similarity strictly above 0.8 with at least one of the last 3
already-merged segments. -/
def dedupStepSpec (overlap_start : ℚ) (acc : List Segment) (seg : Segment) : List Segment :=
  if seg.start < overlap_start + 1 ∧
      ∃ prev ∈ lastThree acc, jaccard seg.text prev.text > 8/10 then
    acc
  else acc ++ [seg]

/-- Processing of one subsequent chunk as the specification words it:
`overlap_start` is the last merged segment's end minus `CHUNK_OVERLAP`,
computed when the chunk's processing begins. -/
def processChunkSpec (merged : List Segment) (chunk_segments : List Segment) : List Segment :=
  let overlap_start := lastEnd merged - CHUNK_OVERLAP
  chunk_segments.foldl (dedupStepSpec overlap_start) merged

/-- A batch scenario in which the provider job completes and yields a
result with no diarized entries and a plain transcript. -/
def fallbackScenario : BatchScenario := .completes [] (.success ⟨[], "hello"⟩)

/-- A batch scenario that completes but reports no successful file, the
single failed file carrying an empty `error_message`. -/
def emptyErrScenario : BatchScenario := .completes [] (.noSuccess [[("error_message", "")]])

/-- A batch scenario that completes with an entirely empty result (no
diarized entries, empty transcript), so the chunk produces no segments. -/
def emptyOkScenario : BatchScenario := .completes [] (.success ⟨[], ""⟩)

/-- A successful batch scenario with two recognized in-progress polls. -/
def monoScenario : BatchScenario := .completes [12, 25] (.success ⟨[], "hello"⟩)

/-- Chunk oracle: chunk 0 succeeds (fallback transcript), chunk 1 fails
ffmpeg extraction. -/
def c5Oracle : ℕ → ChunkOutcome := fun i =>
  if i = 0 then .run fallbackScenario else .extractFail ("boom")

/-- Chunk oracle: every chunk raises an exception immediately. -/
def exnOracle : ℕ → ChunkOutcome := fun _ => .raised ("boom")

/-- Chunk oracle: every chunk's batch job succeeds with the fallback
transcript segment. -/
def okOracle : ℕ → ChunkOutcome := fun _ => .run fallbackScenario

/-- Chunk oracle: every chunk's batch job succeeds but yields no segments. -/
def emptyOkOracle : ℕ → ChunkOutcome := fun _ => .run emptyOkScenario

/-- The scenario shape under which `transcribe_audio_batch` returns an
empty failure message: the provider reports only failed files and the first
failed file carries an `error_message` field equal to the empty string. -/
def emptyErrorMessageCase (scn : BatchScenario) : Prop :=
  ∃ pre f rest, scn = .completes pre (.noSuccess (f :: rest)) ∧
    pyGet f ("error_message") (pyStrDict f) = ""

/-! ### Helper lemmas -/

theorem pyInt_of_nonneg {q : ℚ} (h : 0 ≤ q) : pyInt q = ⌊q⌋ := by
  simp [pyInt, not_lt.2 h]

theorem neg_floor_neg_eq_ceil (a : ℚ) : -⌊-a⌋ = ⌈a⌉ := by
  rw [← Int.ceil_neg, neg_neg]

theorem pyInt_mono {a b : ℚ} (h : a ≤ b) : pyInt a ≤ pyInt b := by
  unfold pyInt
  by_cases ha : a < 0 <;> by_cases hb : b < 0
  · rw [if_pos ha, if_pos hb]
    exact neg_le_neg (Int.floor_le_floor (neg_le_neg h))
  · rw [if_pos ha, if_neg hb]
    have h1 : -⌊-a⌋ ≤ 0 := by
      rw [neg_floor_neg_eq_ceil]
      exact_mod_cast Int.ceil_le.2 (by exact_mod_cast ha.le)
    have h2 : (0 : ℤ) ≤ ⌊b⌋ := Int.le_floor.2 (by exact_mod_cast not_lt.1 hb)
    omega
  · exact absurd (lt_of_le_of_lt h hb) ha
  · rw [if_neg ha, if_neg hb]
    exact Int.floor_le_floor h

theorem text_similarity_eq_jaccard (a b : String) :
    text_similarity a b = jaccard a b := by
  unfold text_similarity jaccard
  by_cases ha : tokenSet a = ∅
  · simp [ha]
  · by_cases hb : tokenSet b = ∅
    · simp [hb]
    · have hu : tokenSet a ∪ tokenSet b ≠ ∅ := by
        intro h
        exact ha (Finset.union_eq_empty.1 h).1
      simp [ha, hb, hu]

theorem text_similarity_comm (a b : String) :
    text_similarity a b = text_similarity b a := by
  by_cases ha : tokenSet a = ∅ <;> by_cases hb : tokenSet b = ∅ <;>
    simp [text_similarity, ha, hb, Finset.inter_comm, Finset.union_comm]

/-! ### C9 -/

/-- C9 counterexample: the claim asserts similarity 1.0 whenever both
strings are non-empty and lower-case to the same token set; the whitespace
string witnesses both conditions (its token set is empty, equal to itself)
while `_text_similarity` returns 0, not 1. -/
theorem C9_counterexample :
    ((" " : String) ≠ "") ∧ tokenSet (" ") = tokenSet (" ") ∧
      text_similarity (" ") (" ") ≠ 1 := by decide

/-- C9 (amended): `_text_similarity` always lands in `[0, 1]`, is
symmetric, returns 0 whenever either string has no whitespace-separated
tokens, and returns 1 whenever the first string has at least one token and
both lower-case to the same token set (the original claim required only
that the strings be non-empty, which fails on whitespace-only strings). -/
theorem C9_similarity_properties (a b : String) :
    (0 ≤ text_similarity a b ∧ text_similarity a b ≤ 1) ∧
    text_similarity a b = text_similarity b a ∧
    ((tokenSet a = ∅ ∨ tokenSet b = ∅) → text_similarity a b = 0) ∧
    ((tokenSet a).Nonempty → tokenSet a = tokenSet b → text_similarity a b = 1) := by
  refine ⟨?_, text_similarity_comm a b, ?_, ?_⟩
  · by_cases h : tokenSet a = ∅ ∨ tokenSet b = ∅
    · simp [text_similarity, h]
    · have hu : tokenSet a ∪ tokenSet b ≠ ∅ := by
        intro he
        exact h (Or.inl (Finset.union_eq_empty.1 he).1)
      have hupos : (0 : ℚ) < ((tokenSet a ∪ tokenSet b).card : ℚ) := by
        exact_mod_cast Finset.card_pos.2 (Finset.nonempty_iff_ne_empty.2 hu)
      constructor
      · simp only [text_similarity, if_neg h, if_neg hu]
        positivity
      · simp only [text_similarity, if_neg h, if_neg hu]
        rw [div_le_one hupos]
        exact_mod_cast Finset.card_le_card
          (Finset.inter_subset_union (s := tokenSet a) (t := tokenSet b))
  · intro h
    simp [text_similarity, h]
  · intro hne heq
    have ha : tokenSet a ≠ ∅ := Finset.nonempty_iff_ne_empty.1 hne
    have hcond : ¬(tokenSet a = ∅ ∨ tokenSet b = ∅) := by
      rw [← heq]
      simp [ha]
    have hu : tokenSet a ∪ tokenSet b ≠ ∅ := by
      intro he
      exact ha (Finset.union_eq_empty.1 he).1
    have hval : text_similarity a b =
        ((tokenSet a ∩ tokenSet b).card : ℚ) / ((tokenSet a ∪ tokenSet b).card : ℚ) := by
      simp only [text_similarity, if_neg hcond, if_neg hu]
    have hcard : ((tokenSet a).card : ℚ) ≠ 0 := by
      exact_mod_cast Finset.card_ne_zero_of_mem hne.choose_spec
    rw [hval, ← heq, Finset.inter_self, Finset.union_self]
    exact div_self hcard

/-- C9 witness: the amended properties evaluated at concrete strings, in
particular the token-set hypotheses of the last two conjuncts discharged
at concrete inputs. -/
theorem C9_similarity_properties_witness :
    text_similarity ("") ("hello") = 0 ∧ text_similarity ("Hi there") ("hi THERE") = 1 :=
  ⟨(C9_similarity_properties ("") ("hello")).2.2.1 (by decide),
   (C9_similarity_properties ("Hi there") ("hi THERE")).2.2.2 (by decide) (by decide)⟩

/-! ### C3 -/

/-- C3: the duplicate-filtering pass of `merge_overlapping_chunks` for a
subsequent chunk agrees exactly with the specification's description: a
segment is discarded if and only if it starts before
`(last merged segment's end - CHUNK_OVERLAP) + 1` and its text has word-set
Jaccard similarity strictly greater than 0.8 with at least one of the last
3 already-merged segments; in particular (second conjunct) a segment whose
similarity to each of those segments is at most 0.8 is never removed. -/
theorem C3_dedup_characterization :
    (∀ merged chunk_segments,
      processChunk merged chunk_segments = processChunkSpec merged chunk_segments) ∧
    (∀ overlap_start acc seg,
      (∀ prev ∈ lastThree acc, text_similarity seg.text prev.text ≤ 8/10) →
      dedupStep overlap_start acc seg = acc ++ [seg]) := by
  have hstep : ∀ overlap_start acc seg,
      dedupStep overlap_start acc seg = dedupStepSpec overlap_start acc seg := by
    intro overlap_start acc seg
    unfold dedupStep dedupStepSpec
    congr 1
    simp only [eq_iff_iff, and_congr_right_iff]
    intro _
    rw [List.any_eq_true]
    constructor
    · rintro ⟨prev, hmem, hsim⟩
      exact ⟨prev, hmem, by
        rw [← text_similarity_eq_jaccard]
        exact of_decide_eq_true hsim⟩
    · rintro ⟨prev, hmem, hsim⟩
      exact ⟨prev, hmem, decide_eq_true (by
        rw [text_similarity_eq_jaccard]
        exact hsim)⟩
  constructor
  · intro merged chunk_segments
    show chunk_segments.foldl (dedupStep (lastEnd merged - CHUNK_OVERLAP)) merged =
      chunk_segments.foldl (dedupStepSpec (lastEnd merged - CHUNK_OVERLAP)) merged
    congr 1
    funext acc seg
    exact hstep _ acc seg
  · intro overlap_start acc seg h
    unfold dedupStep
    rw [if_neg]
    rintro ⟨_, hany⟩
    obtain ⟨prev, hmem, hsim⟩ := List.any_eq_true.1 hany
    exact absurd (of_decide_eq_true hsim) (not_lt.2 (h prev hmem))

/-- C3 witness: a concrete segment that is at most 0.8-similar to each of
the last three merged segments is kept. -/
theorem C3_dedup_characterization_witness :
    dedupStep 0 [] ⟨"1", "Speaker 1", "00:00:05", "hi", 5, 6⟩ =
      [⟨"1", "Speaker 1", "00:00:05", "hi", 5, 6⟩] :=
  C3_dedup_characterization.2 0 [] ⟨"1", "Speaker 1", "00:00:05", "hi", 5, 6⟩ (by decide)

/-! ### C4 -/

/-- C4: for every duration at most `CHUNKING_THRESHOLD` (3600 s) the
pipeline processes the audio as a single provider job over one window
`{0, totalDuration}` submitted with offset 0 (no chunk splitting). -/
theorem C4_single_window (d : ℚ) (h : d ≤ CHUNKING_THRESHOLD) :
    plan d = [⟨0, d⟩] ∧ jobOffsets d = [0] := by
  constructor <;> simp [plan, jobOffsets, if_pos h]

/-- C4 witness: the spec's own scenario, a 31-second recording. -/
theorem C4_single_window_witness :
    ((31 : ℚ) ≤ CHUNKING_THRESHOLD) ∧ plan 31 = [⟨0, 31⟩] ∧ jobOffsets 31 = [0] :=
  ⟨by decide, C4_single_window 31 (by decide)⟩

/-! ### C7 -/

/-- C7 counterexample: with no diarization entries and a non-empty plain
transcript, the normalizer's fallback segment ends at `offset + 10` (a
hard-coded approximate span), not at `offset + chunk duration`: for the
chunked pipeline's windows of `SARVAM_BATCH_MAX_DURATION + CHUNK_OVERLAP =
3330` seconds the claimed end differs from the actual one. -/
theorem C7_counterexample :
    transform_sarvam_sdk_response ⟨[], "hello world"⟩ 0 =
      [⟨"1", "Speaker 1", "00:00:00", "hello world", 0, 10⟩] ∧
    SARVAM_BATCH_MAX_DURATION + CHUNK_OVERLAP ≠ (10 : ℚ) := by
  exact ⟨by with_unfolding_all decide, by with_unfolding_all decide⟩

/-- C7 (amended): with no diarization entries and a non-empty plain
transcript, the normalizer returns exactly one segment with the default
speaker label `Speaker 1` whose span is `[offset, offset + 10]` — a fixed
10-second approximation, not the whole chunk. -/
theorem C7_fallback_segment (r : SdkResult) (offset : ℚ)
    (hE : r.entries = []) (hT : r.transcript ≠ "") :
    transform_sarvam_sdk_response r offset =
      [⟨"1", "Speaker 1", format_timestamp offset, r.transcript, offset, offset + 10⟩] := by
  simp [transform_sarvam_sdk_response, hE, hT]

/-- C7 witness: the amended fallback behaviour at a concrete result and
offset. -/
theorem C7_fallback_segment_witness :
    transform_sarvam_sdk_response ⟨[], "hi"⟩ 5 =
      [⟨"1", "Speaker 1", format_timestamp 5, "hi", 5, 5 + 10⟩] :=
  C7_fallback_segment ⟨[], "hi"⟩ 5 (by decide) (by decide)

/-! ### C1 -/

theorem num_chunks_eq (D : ℚ) (h : 0 ≤ (D - 30) / 3270) :
    num_chunks D = (⌊(D - 30) / 3270⌋).toNat + 1 := by
  have h' : ((3300 : ℚ) - 30) = 3270 := by norm_num
  simp only [num_chunks, SARVAM_BATCH_MAX_DURATION, CHUNK_OVERLAP, h',
    pyInt_of_nonneg h]

theorem chunkStart_eq (i : ℕ) : chunkStart i = (i : ℚ) * 3270 := by
  norm_num [chunkStart, SARVAM_BATCH_MAX_DURATION, CHUNK_OVERLAP]

theorem windowEnd_eq (D : ℚ) (i : ℕ) :
    windowEnd D i = min ((i : ℚ) * 3270 + 3330) D := by
  norm_num [windowEnd, chunkStart_eq, SARVAM_BATCH_MAX_DURATION, CHUNK_OVERLAP]

/-- C1 counterexample: at `totalDuration = 10000` the plan has 4 windows
and already the first two (neither of them final) overlap by 60 seconds,
not by `CHUNK_OVERLAP = 30`. -/
theorem C1_counterexample :
    num_chunks 10000 = 4 ∧
    windowEnd 10000 0 - chunkStart 1 = 60 ∧ (60 : ℚ) ≠ CHUNK_OVERLAP := by
  refine ⟨by with_unfolding_all decide, by with_unfolding_all decide, by with_unfolding_all decide⟩

/-- C1 (amended): for `totalDuration > CHUNKING_THRESHOLD` the chunk plan
(window `i` spans from `i * (BATCH_MAX_DURATION - CHUNK_OVERLAP)` for
`BATCH_MAX_DURATION + CHUNK_OVERLAP` seconds, clamped to `totalDuration`)
covers `[0, totalDuration]` with no gaps, but consecutive windows overlap
by exactly `2 * CHUNK_OVERLAP = 60` seconds — not by `CHUNK_OVERLAP` as
claimed — except at the final window, whose overlap with its predecessor
lies between `CHUNK_OVERLAP` and `2 * CHUNK_OVERLAP`. -/
theorem C1_plan_geometry (D : ℚ) (hD : CHUNKING_THRESHOLD < D) :
    2 ≤ num_chunks D ∧
    chunkStart 0 = 0 ∧
    windowEnd D (num_chunks D - 1) = D ∧
    (∀ i, i + 1 < num_chunks D → chunkStart (i + 1) < windowEnd D i) ∧
    (∀ i, i + 2 < num_chunks D → windowEnd D i - chunkStart (i + 1) = 2 * CHUNK_OVERLAP) ∧
    (CHUNK_OVERLAP ≤ windowEnd D (num_chunks D - 2) - chunkStart (num_chunks D - 1) ∧
      windowEnd D (num_chunks D - 2) - chunkStart (num_chunks D - 1) ≤ 2 * CHUNK_OVERLAP) := by
  have hD' : (3600 : ℚ) < D := by simpa [CHUNKING_THRESHOLD] using hD
  have h3270 : (0 : ℚ) < 3270 := by norm_num
  have h1 : (1 : ℚ) < (D - 30) / 3270 := by
    rw [lt_div_iff₀ h3270]
    linarith
  have h0 : (0 : ℚ) ≤ (D - 30) / 3270 := le_of_lt (lt_trans one_pos h1)
  have hk1 : 1 ≤ ⌊(D - 30) / 3270⌋ := by
    apply Int.le_floor.2
    exact_mod_cast h1.le
  have hlow : 3270 * ((⌊(D - 30) / 3270⌋ : ℤ) : ℚ) ≤ D - 30 := by
    have hfl := Int.floor_le ((D - 30) / 3270)
    rw [le_div_iff₀ h3270] at hfl
    linarith
  have hhigh : D - 30 < 3270 * (((⌊(D - 30) / 3270⌋ : ℤ) : ℚ) + 1) := by
    have hfl := Int.lt_floor_add_one ((D - 30) / 3270)
    rw [div_lt_iff₀ h3270] at hfl
    linarith
  set n : ℕ := (⌊(D - 30) / 3270⌋).toNat with hn
  have hnQ : (n : ℚ) = ((⌊(D - 30) / 3270⌋ : ℤ) : ℚ) := by
    rw [hn]
    exact_mod_cast Int.toNat_of_nonneg (by omega)
  have hn1 : 1 ≤ n := by
    rw [hn]
    omega
  have hnum : num_chunks D = n + 1 := num_chunks_eq D h0
  have hlowQ : 3270 * (n : ℚ) ≤ D - 30 := by rw [hnQ]; exact hlow
  have hhighQ : D - 30 < 3270 * ((n : ℚ) + 1) := by rw [hnQ]; exact hhigh
  rw [hnum]
  refine ⟨by omega, ?_, ?_, ?_, ?_, ?_⟩
  · rw [chunkStart_eq]
    norm_num
  · have hidx : n + 1 - 1 = n := by omega
    rw [hidx, windowEnd_eq]
    apply min_eq_right
    linarith
  · intro i hi
    have hi' : ((i : ℚ) + 1) ≤ (n : ℚ) := by exact_mod_cast by omega
    rw [chunkStart_eq, windowEnd_eq, lt_min_iff]
    constructor
    · push_cast
      linarith
    · push_cast
      nlinarith
  · intro i hi
    have hi' : ((i : ℚ) + 2) ≤ (n : ℚ) := by exact_mod_cast by omega
    have hclamp : (i : ℚ) * 3270 + 3330 ≤ D := by nlinarith
    rw [chunkStart_eq, windowEnd_eq, min_eq_left hclamp]
    push_cast
    norm_num [CHUNK_OVERLAP]
    ring_nf
  · have hidx2 : n + 1 - 2 = n - 1 := by omega
    have hidx1 : n + 1 - 1 = n := by omega
    have hc : ((n - 1 : ℕ) : ℚ) * 3270 + 3330 = (n : ℚ) * 3270 + 60 := by
      rw [Nat.cast_sub hn1]
      push_cast
      ring
    have hCO : CHUNK_OVERLAP = (30 : ℚ) := by norm_num [CHUNK_OVERLAP]
    rw [hidx2, hidx1, chunkStart_eq, windowEnd_eq, hc, hCO]
    have hm := min_le_left ((n : ℚ) * 3270 + 60) D
    constructor
    · rw [le_sub_iff_add_le, le_min_iff]
      constructor <;> linarith
    · linarith

/-- C1 witness: the amended geometry applied at `totalDuration = 10000`. -/
theorem C1_plan_geometry_witness :
    CHUNKING_THRESHOLD < (10000 : ℚ) ∧ windowEnd 10000 (num_chunks 10000 - 1) = 10000 :=
  ⟨by with_unfolding_all decide,
   (C1_plan_geometry 10000 (by with_unfolding_all decide)).2.2.1⟩

/-! ### C5 -/

theorem append_data_ne (s t : String) (hs : s.data ≠ []) : (s ++ t).data ≠ [] := by
  rw [String.data_append]
  intro h
  exact hs (List.append_eq_nil.mp h).1

theorem append_ne_empty (s t : String) (hs : s.data ≠ []) : s ++ t ≠ "" := by
  intro h
  apply append_data_ne s t hs
  rw [h]

theorem data_head_append (s t : String) (c : Char) (h : s.data.head? = some c) :
    (s ++ t).data.head? = some c := by
  rw [String.data_append]
  cases hs : s.data with
  | nil =>
      rw [hs] at h
      simp at h
  | cons a rest =>
      rw [hs] at h
      simpa using h

/-- Every early exit of the chunk loop is either a raised exception or a
failure return with no segments and a non-empty message that starts with
the letter F (both early-exit messages begin with the word Failed). -/
theorem chunkLoop_inl_shape (oc : ℕ → ChunkOutcome) :
    ∀ (idxs : List ℕ) (fs : FS) (acc : List (List Segment)) (jobs : ℕ)
      (out : RunOutcome) (fs2 : FS) (jobs2 : ℕ),
      chunkLoop oc idxs fs acc jobs = (Sum.inl out, fs2, jobs2) →
      (∃ m, out = .exn m) ∨
      ∃ m, out = .ret false m none ∧ m ≠ "" ∧ m.data.head? = some 'F' := by
  intro idxs
  induction idxs with
  | nil =>
      intro fs acc jobs out fs2 jobs2 h
      simp [chunkLoop] at h
  | cons i rest ih =>
      intro fs acc jobs out fs2 jobs2 h
      rw [chunkLoop] at h
      cases hoc : oc i with
      | raised msg =>
          rw [hoc] at h
          simp only [Prod.mk.injEq, Sum.inl.injEq] at h
          exact Or.inl ⟨msg, h.1.symm⟩
      | extractFail err =>
          rw [hoc] at h
          simp only [Prod.mk.injEq, Sum.inl.injEq] at h
          exact Or.inr ⟨_, h.1.symm,
            append_ne_empty _ _ (append_data_ne _ _ (append_data_ne _ _ (by decide))),
            data_head_append _ _ _ (data_head_append _ _ _
              (data_head_append _ _ _ (by decide)))⟩
      | run scn =>
          rw [hoc] at h
          simp only at h
          split at h
          · exact ih _ _ _ out fs2 jobs2 h
          · simp only [Prod.mk.injEq, Sum.inl.injEq] at h
            exact Or.inr ⟨_, h.1.symm,
              append_ne_empty _ _ (append_data_ne _ _ (append_data_ne _ _ (by decide))),
              data_head_append _ _ _ (data_head_append _ _ _
                (data_head_append _ _ _ (by decide)))⟩

/-- C5 counterexample: `totalDuration = 4200` (2 chunks); chunk 0 succeeds
and leaves `chunk_0000.wav` behind, chunk 1 fails ffmpeg extraction.  The
run exits with a failure return, yet the chunk file and the chunks
directory still exist — the extraction-failure exit path performs no
cleanup. -/
theorem C5_counterexample :
    (transcribe_audio_chunked 4200 c5Oracle).1 =
      .ret false ("Failed to extract chunk 1: boom") none ∧
    (transcribe_audio_chunked 4200 c5Oracle).2.1 = ⟨["chunk_0000.wav"], true⟩ ∧
    (transcribe_audio_chunked 4200 c5Oracle).2.1 ≠ cleanFS := by
  refine ⟨by with_unfolding_all decide, by with_unfolding_all decide,
    by with_unfolding_all decide⟩

/-- C5 (amended): the chunked pipeline removes all chunk artifacts on the
success path (including the no-segments failure decided after the loop) and
on the raised-exception path, but not on the per-chunk extraction or
transcription failure returns, which leave the artifacts behind. -/
theorem C5_cleanup_on_success_and_exception (total_duration : ℚ) (oc : ℕ → ChunkOutcome) :
    (∀ msg, (transcribe_audio_chunked total_duration oc).1 = .exn msg →
      (transcribe_audio_chunked total_duration oc).2.1 = cleanFS) ∧
    (∀ msg segs, (transcribe_audio_chunked total_duration oc).1 = .ret true msg segs →
      (transcribe_audio_chunked total_duration oc).2.1 = cleanFS) ∧
    ((transcribe_audio_chunked total_duration oc).1 =
        .ret false ("No segments generated from chunked transcription") none →
      (transcribe_audio_chunked total_duration oc).2.1 = cleanFS) := by
  rcases hC : chunkLoop oc (List.range (num_chunks total_duration)) ⟨[], true⟩ [] 0 with
    ⟨out | acc, fs, jobs⟩
  · rcases chunkLoop_inl_shape oc _ _ _ _ _ _ _ hC with ⟨m, rfl⟩ | ⟨m, rfl, -, hhead⟩
    · have hEq : transcribe_audio_chunked total_duration oc =
          (.exn m, cleanupFS fs, jobs) := by
        simp only [transcribe_audio_chunked]
        rw [hC]
      rw [hEq]
      exact ⟨fun _ _ => rfl, fun msg segs h => by simp at h, fun h => by simp at h⟩
    · have hEq : transcribe_audio_chunked total_duration oc =
          (.ret false m none, fs, jobs) := by
        simp only [transcribe_audio_chunked]
        rw [hC]
      rw [hEq]
      refine ⟨fun _ h => by simp at h, fun msg segs h => by simp at h, fun h => ?_⟩
      simp only [RunOutcome.ret.injEq] at h
      rw [h.2.1] at hhead
      exact absurd hhead (by decide)
  · by_cases hacc : acc = []
    · have hEq : transcribe_audio_chunked total_duration oc =
          (.ret false ("No segments generated from chunked transcription") none,
            cleanupFS fs, jobs) := by
        simp only [transcribe_audio_chunked]
        rw [hC]
        simp [hacc]
      rw [hEq]
      exact ⟨fun _ h => by simp at h, fun msg segs h => by simp at h, fun _ => rfl⟩
    · have hEq : transcribe_audio_chunked total_duration oc =
          (.ret true ("Transcribed " ++ toString (num_chunks total_duration) ++
              " chunks successfully") (some (merge_overlapping_chunks acc)),
            cleanupFS fs, jobs) := by
        simp only [transcribe_audio_chunked]
        rw [hC]
        simp [hacc]
      rw [hEq]
      exact ⟨fun _ h => by simp at h, fun _ _ _ => rfl, fun h => by simp at h⟩

/-- C5 witness: a run whose first chunk raises ends with a clean chunk
filesystem, and a run whose chunks all succeed with no segments exits
through the no-segments failure with a clean chunk filesystem. -/
theorem C5_cleanup_witness :
    ((transcribe_audio_chunked 4200 exnOracle).1 = .exn ("boom") ∧
     (transcribe_audio_chunked 4200 exnOracle).2.1 = cleanFS) ∧
    ((transcribe_audio_chunked 4200 emptyOkOracle).1 =
        .ret false ("No segments generated from chunked transcription") none ∧
     (transcribe_audio_chunked 4200 emptyOkOracle).2.1 = cleanFS) :=
  ⟨⟨by with_unfolding_all decide,
    (C5_cleanup_on_success_and_exception 4200 exnOracle).1 ("boom")
      (by with_unfolding_all decide)⟩,
   ⟨by with_unfolding_all decide,
    (C5_cleanup_on_success_and_exception 4200 emptyOkOracle).2.2
      (by with_unfolding_all decide)⟩⟩

/-! ### C6 -/

/-- When every chunk extracts and transcribes successfully, the chunk loop
visits every index and submits one provider job per chunk. -/
theorem chunkLoop_all_ok (oc : ℕ → ChunkOutcome) :
    ∀ (idxs : List ℕ) (fs : FS) (acc : List (List Segment)) (jobs : ℕ),
      (∀ i ∈ idxs, ∃ scn, oc i = .run scn ∧ (batchResult scn (chunkStart i)).1 = true) →
      ∃ acc2 fs2, chunkLoop oc idxs fs acc jobs = (Sum.inr acc2, fs2, jobs + idxs.length) := by
  intro idxs
  induction idxs with
  | nil =>
      intro fs acc jobs _
      exact ⟨acc, fs, rfl⟩
  | cons i rest ih =>
      intro fs acc jobs h
      obtain ⟨scn, hoc, hok⟩ := h i (List.mem_cons_self i rest)
      obtain ⟨acc2, fs2, hrec⟩ := ih ⟨fs.files ++ [chunkFileName i], fs.dirExists⟩
        (match (batchResult scn (chunkStart i)).2.2 with
          | some segs => if segs ≠ [] then acc ++ [segs] else acc
          | none => acc)
        (jobs + 1) (fun j hj => h j (List.mem_cons_of_mem _ hj))
      have harith : jobs + 1 + rest.length = jobs + (i :: rest).length := by
        simp only [List.length_cons]
        omega
      rw [harith] at hrec
      refine ⟨acc2, fs2, ?_⟩
      rw [chunkLoop, hoc]
      simp only
      rw [if_pos hok]
      exact hrec

set_option maxRecDepth 10000 in
/-- C6 counterexample: at `totalDuration = 3270030` the plan has 1001
chunks and the pipeline — given an oracle under which every provider job
succeeds — submits all 1001 provider jobs: nothing ever fails with a
`PlanTooLarge` error before submission, and no chunk-count ceiling exists
anywhere in the code. -/
theorem C6_counterexample :
    num_chunks 3270030 = 1001 ∧
    (transcribe_audio_chunked 3270030 emptyOkOracle).2.2 = 1001 :=
  ⟨by with_unfolding_all decide, by with_unfolding_all decide⟩

/-- C6 (amended): there is no chunk-count ceiling: for every total
duration, when every chunk's extraction and batch job succeed, the chunked
pipeline submits exactly `num_chunks` provider jobs — planning never
rejects a chunk count. -/
theorem C6_no_ceiling (total_duration : ℚ) (oc : ℕ → ChunkOutcome)
    (h : ∀ i < num_chunks total_duration,
      ∃ scn, oc i = .run scn ∧ (batchResult scn (chunkStart i)).1 = true) :
    (transcribe_audio_chunked total_duration oc).2.2 = num_chunks total_duration := by
  obtain ⟨acc2, fs2, hrun⟩ := chunkLoop_all_ok oc (List.range (num_chunks total_duration))
    ⟨[], true⟩ [] 0 (fun i hi => h i (List.mem_range.mp hi))
  have hlen : (0 : ℕ) + (List.range (num_chunks total_duration)).length =
      num_chunks total_duration := by
    simp
  rw [hlen] at hrun
  simp only [transcribe_audio_chunked]
  rw [hrun]
  by_cases hacc : acc2 = [] <;> simp [hacc]

/-- C6 witness: the amended statement applied at a concrete 2-chunk run. -/
theorem C6_no_ceiling_witness :
    (transcribe_audio_chunked 4200 emptyOkOracle).2.2 = num_chunks 4200 :=
  C6_no_ceiling 4200 emptyOkOracle (fun _ _ => ⟨emptyOkScenario, rfl, rfl⟩)

/-! ### C10 -/

/-- Shape of one `transcribe_audio_batch` result: a failure carries no
segments, a success carries some; the message is empty only in the
empty-`error_message` provider-failure case (and then success is false). -/
theorem batchResult_shape (scn : BatchScenario) (offset : ℚ) :
    ((batchResult scn offset).1 = false → (batchResult scn offset).2.2 = none) ∧
    ((batchResult scn offset).1 = true → ∃ segs, (batchResult scn offset).2.2 = some segs) ∧
    ((batchResult scn offset).2.1 = "" → (batchResult scn offset).1 = false ∧
      emptyErrorMessageCase scn) := by
  rcases scn with ⟨stage, msg⟩ | pre | ⟨pre, el, pc⟩ | ⟨pre, fstate⟩ | ⟨pre, fetch⟩
  · have hv : batchResult (.earlyRaise stage msg) offset =
        (false, "Batch API error: " ++ msg, none) := rfl
    rw [hv]
    exact ⟨fun _ => rfl, fun h => by simp at h,
      fun hm => absurd hm (append_ne_empty _ _ (by decide))⟩
  · have hv : batchResult (.pollFailed pre) offset =
        (false, "Batch job failed", none) := rfl
    rw [hv]
    exact ⟨fun _ => rfl, fun h => by simp at h, fun hm => absurd hm (by decide)⟩
  · have hv : batchResult (.pollTimeout pre el pc) offset =
        (false, "Transcription timed out after " ++ toString (pyInt el) ++ "s (" ++
          toString pc ++ " polls)", none) := rfl
    rw [hv]
    exact ⟨fun _ => rfl, fun h => by simp at h,
      fun hm => absurd hm (append_ne_empty _ _
        (append_data_ne _ _ (append_data_ne _ _ (append_data_ne _ _ (by decide)))))⟩
  · have hv : batchResult (.stuck pre fstate) offset =
        (false, "Job stuck in " ++ fstate ++ " state", none) := rfl
    rw [hv]
    exact ⟨fun _ => rfl, fun h => by simp at h,
      fun hm => absurd hm (append_ne_empty _ _ (append_data_ne _ _ (by decide)))⟩
  · rcases fetch with fmsg | failedFiles | result
    · have hv : batchResult (.completes pre (.fetchRaises fmsg)) offset =
          (false, "Failed to extract results: " ++ fmsg, none) := rfl
      rw [hv]
      exact ⟨fun _ => rfl, fun h => by simp at h,
        fun hm => absurd hm (append_ne_empty _ _ (by decide))⟩
    · rcases failedFiles with _ | ⟨f, rest⟩
      · have hv : batchResult (.completes pre (.noSuccess [])) offset =
            (false, "No successful transcriptions", none) := rfl
        rw [hv]
        exact ⟨fun _ => rfl, fun h => by simp at h, fun hm => absurd hm (by decide)⟩
      · have hv : batchResult (.completes pre (.noSuccess (f :: rest))) offset =
            (false, pyGet f ("error_message") (pyStrDict f), none) := rfl
        rw [hv]
        exact ⟨fun _ => rfl, fun h => by simp at h,
          fun hm => ⟨rfl, pre, f, rest, rfl, hm⟩⟩
    · have hv : batchResult (.completes pre (.success result)) offset =
          (true, "Transcription successful",
            some (transform_sarvam_sdk_response result offset)) := rfl
      rw [hv]
      exact ⟨fun h => by simp at h, fun _ => ⟨_, rfl⟩,
        fun hm => absurd (show ("Transcription successful" : String) = "" from hm)
          (by decide)⟩

/-- Shape of one chunked-run outcome: an exception, a failure return with a
non-empty message and no segments, or a success with a non-empty message
and some segments. -/
theorem chunked_outcome_shape (total_duration : ℚ) (oc : ℕ → ChunkOutcome) :
    (∃ m, (transcribe_audio_chunked total_duration oc).1 = .exn m) ∨
    (∃ m, (transcribe_audio_chunked total_duration oc).1 = .ret false m none ∧ m ≠ "") ∨
    (∃ m s, (transcribe_audio_chunked total_duration oc).1 = .ret true m (some s) ∧
      m ≠ "") := by
  rcases hC : chunkLoop oc (List.range (num_chunks total_duration)) ⟨[], true⟩ [] 0 with
    ⟨out | acc, fs, jobs⟩
  · rcases chunkLoop_inl_shape oc _ _ _ _ _ _ _ hC with ⟨m, rfl⟩ | ⟨m, rfl, hne, -⟩
    · refine Or.inl ⟨m, ?_⟩
      simp only [transcribe_audio_chunked]
      rw [hC]
    · refine Or.inr (Or.inl ⟨m, ?_, hne⟩)
      simp only [transcribe_audio_chunked]
      rw [hC]
  · by_cases hacc : acc = []
    · refine Or.inr (Or.inl ⟨"No segments generated from chunked transcription", ?_, by decide⟩)
      simp only [transcribe_audio_chunked]
      rw [hC]
      simp [hacc]
    · refine Or.inr (Or.inr ⟨"Transcribed " ++ toString (num_chunks total_duration) ++
        " chunks successfully", merge_overlapping_chunks acc, ?_,
        append_ne_empty _ _ (append_data_ne _ _ (by decide))⟩)
      simp only [transcribe_audio_chunked]
      rw [hC]
      simp [hacc]

/-- C10 counterexample: with a valid key, an existing file, a readable
sub-threshold duration and a provider response whose only failed file
carries an empty `error_message`, `transcribe_audio` returns success =
False and segments = None but an *empty* message, contradicting the claim
that the message is always non-empty. -/
theorem C10_counterexample :
    transcribe_audio true true ("audio.wav") (some 100) emptyErrScenario emptyOkOracle =
      (false, "", none) := by
  with_unfolding_all decide

/-- C10 (amended): `transcribe_audio` is total — it always returns a
`(success, message, segments)` triple and never propagates an exception
(its body is one `try`/`except`, which the embedding reflects by being a
total function of the environment and provider oracles); on every error
path success = False and segments = None; the message is non-empty except
in the single-job path when the provider reports a failed file whose
`error_message` is the empty string. -/
theorem C10_total_interface (hasKey fileExists : Bool) (pathStr : String)
    (duration : Option ℚ) (scn : BatchScenario) (oc : ℕ → ChunkOutcome) :
    ((transcribe_audio hasKey fileExists pathStr duration scn oc).1 = false →
      (transcribe_audio hasKey fileExists pathStr duration scn oc).2.2 = none) ∧
    ((transcribe_audio hasKey fileExists pathStr duration scn oc).1 = true →
      ∃ segs, (transcribe_audio hasKey fileExists pathStr duration scn oc).2.2 = some segs) ∧
    ((transcribe_audio hasKey fileExists pathStr duration scn oc).2.1 = "" →
      (transcribe_audio hasKey fileExists pathStr duration scn oc).1 = false ∧
      emptyErrorMessageCase scn) := by
  by_cases hk : hasKey = true
  · by_cases hf : fileExists = true
    · rcases duration with - | d
      · have hEq : transcribe_audio hasKey fileExists pathStr none scn oc =
            (false, "Failed to get audio duration", none) := by
          simp [transcribe_audio, hk, hf]
        rw [hEq]
        exact ⟨fun _ => rfl, fun h => by simp at h, fun hm => absurd hm (by decide)⟩
      · by_cases hd : d ≤ CHUNKING_THRESHOLD
        · have hEq : transcribe_audio hasKey fileExists pathStr (some d) scn oc =
              batchResult scn 0 := by
            simp [transcribe_audio, hk, hf, hd]
          rw [hEq]
          exact batchResult_shape scn 0
        · rcases hrun : transcribe_audio_chunked d oc with ⟨out, fs, jobs⟩
          have hshape := chunked_outcome_shape d oc
          rw [hrun] at hshape
          rcases out with ⟨ok, msg, segs⟩ | m
          · have hEq : transcribe_audio hasKey fileExists pathStr (some d) scn oc =
                (ok, msg, segs) := by
              simp [transcribe_audio, hk, hf, hd, hrun]
            rw [hEq]
            rcases hshape with ⟨m, hm⟩ | ⟨m, hm, hne⟩ | ⟨m, s, hm, hne⟩
            · simp at hm
            · simp only [RunOutcome.ret.injEq] at hm
              obtain ⟨rfl, rfl, rfl⟩ := hm
              exact ⟨fun _ => rfl, fun h => by simp at h, fun hm2 => absurd hm2 hne⟩
            · simp only [RunOutcome.ret.injEq] at hm
              obtain ⟨rfl, rfl, rfl⟩ := hm
              exact ⟨fun h => by simp at h, fun _ => ⟨s, rfl⟩, fun hm2 => absurd hm2 hne⟩
          · have hEq : transcribe_audio hasKey fileExists pathStr (some d) scn oc =
                (false, "Transcription failed: " ++ m, none) := by
              simp [transcribe_audio, hk, hf, hd, hrun]
            rw [hEq]
            exact ⟨fun _ => rfl, fun h => by simp at h,
              fun hm => absurd hm (append_ne_empty _ _ (by decide))⟩
    · have hEq : transcribe_audio hasKey fileExists pathStr duration scn oc =
          (false, "Audio file not found: " ++ pathStr, none) := by
        simp [transcribe_audio, hk, hf]
      rw [hEq]
      exact ⟨fun _ => rfl, fun h => by simp at h,
        fun hm => absurd hm (append_ne_empty _ _ (by decide))⟩
  · have hEq : transcribe_audio hasKey fileExists pathStr duration scn oc =
        (false, "Transcription failed: SARVAM_API_KEY environment variable not set",
          none) := by
      simp [transcribe_audio, hk]
    rw [hEq]
    exact ⟨fun _ => rfl, fun h => by simp at h, fun hm => absurd hm (by decide)⟩

/-- C10 witness: the amended interface applied along a fully successful
single-job run. -/
theorem C10_total_interface_witness :
    ∃ segs, (transcribe_audio true true ("audio.wav") (some 100) fallbackScenario
      emptyOkOracle).2.2 = some segs :=
  (C10_total_interface true true ("audio.wav") (some 100) fallbackScenario
    emptyOkOracle).2.1 (by with_unfolding_all decide)

/-! ### C8 -/

theorem pollProgress_mono {e1 e2 : ℚ} (h : e1 ≤ e2) :
    pollProgress e1 ≤ pollProgress e2 := by
  unfold pollProgress
  have h10 : e1 / 10 ≤ e2 / 10 := by linarith
  exact add_le_add_left (min_le_min le_rfl (pyInt_mono h10)) 40

theorem pollProgress_ge {e : ℚ} (h : 0 ≤ e) : 40 ≤ pollProgress e := by
  unfold pollProgress
  have h1 : (0 : ℤ) ≤ pyInt (e / 10) := by
    rw [pyInt_of_nonneg (div_nonneg h (by norm_num))]
    exact Int.le_floor.2 (by exact_mod_cast div_nonneg h (by norm_num))
  have h2 : (0 : ℤ) ≤ min 40 (pyInt (e / 10)) := le_min (by norm_num) h1
  linarith

theorem pollProgress_le (e : ℚ) : pollProgress e ≤ 80 := by
  unfold pollProgress
  have := min_le_left (40 : ℤ) (pyInt (e / 10))
  linarith

/-- The initial events followed by the in-progress poll events form a
non-decreasing progress sequence whose last element is at most 80. -/
theorem chain_batch_core (pre : List ℚ) (hs : List.Chain' (· ≤ ·) pre)
    (h0 : ∀ e ∈ pre, 0 ≤ e) :
    List.Chain' (fun a b : String × ℤ => a.2 ≤ b.2)
      (initialEvents ++ pre.map (fun e => ("processing", pollProgress e))) ∧
    (∀ x ∈ (initialEvents ++ pre.map (fun e => ("processing", pollProgress e))).getLast?,
      x.2 ≤ 80) := by
  constructor
  · apply List.Chain'.append
    · norm_num [initialEvents, List.chain'_cons]
    · rw [List.chain'_map]
      exact hs.imp (fun a b hab => pollProgress_mono hab)
    · intro x hx y hy
      have hx2 : x.2 = 40 := by
        simp [initialEvents] at hx
        subst hx
        rfl
      rcases pre with - | ⟨e, rest⟩
      · simp at hy
      · simp only [List.map_cons, List.head?_cons, Option.mem_def, Option.some.injEq] at hy
        subst hy
        rw [hx2]
        exact pollProgress_ge (h0 e (List.mem_cons_self e rest))
  · intro x hx
    rcases hq : pre with - | ⟨e, rest⟩
    · rw [hq] at hx
      simp [initialEvents] at hx
      subst hx
      norm_num
    · rw [List.getLast?_append_of_ne_nil _ (by simp [hq])] at hx
      rw [List.getLast?_map] at hx
      simp only [Option.mem_def, Option.map_eq_some'] at hx
      obtain ⟨y, -, hxy⟩ := hx
      rw [← hxy]
      exact pollProgress_le y

/-- C8 counterexample: already a successful sub-threshold single-job run
emits progress 10 (step `uploading`, from `transcribe_audio`) and then
progress 5 (step `initializing`, from `transcribe_audio_batch`), so the
emitted progress sequence is not monotonically non-decreasing. -/
theorem C8_counterexample :
    ¬ List.Chain' (fun a b : String × ℤ => a.2 ≤ b.2)
      (transcribe_audio_events true true (some 100) fallbackScenario emptyOkOracle) := by
  have h : transcribe_audio_events true true (some 100) fallbackScenario emptyOkOracle =
      [("analyzing", 5), ("uploading", 10), ("initializing", 5), ("uploading", 10),
       ("uploading", 20), ("processing", 30), ("processing", 40), ("finalizing", 85),
       ("finalizing", 90), ("completed", 100)] := by
    with_unfolding_all decide
  rw [h]
  simp [List.chain'_cons]

/-- C8 (amended): the progress percentages are monotonically non-decreasing
within the event sequence of one provider job (given chronologically
ordered, non-negative elapsed times at the in-progress polls), but not
across a full run: each chunk's batch call restarts at progress 5 after
earlier events with higher progress, as the counterexample shows. -/
theorem C8_batch_monotone (scn : BatchScenario)
    (hs : List.Chain' (· ≤ ·) (preOf scn)) (h0 : ∀ e ∈ preOf scn, 0 ≤ e) :
    List.Chain' (fun a b : String × ℤ => a.2 ≤ b.2) (batchEvents scn) := by
  rcases scn with ⟨stage, msg⟩ | pre | ⟨pre, el, pc⟩ | ⟨pre, fstate⟩ | ⟨pre, fetch⟩
  · cases stage <;> norm_num [batchEvents, initialEvents, List.chain'_cons]
  · exact (chain_batch_core pre hs h0).1
  · exact (chain_batch_core pre hs h0).1
  · exact (chain_batch_core pre hs h0).1
  · obtain ⟨hc, hlast⟩ := chain_batch_core pre hs h0
    have h85 : List.Chain' (fun a b : String × ℤ => a.2 ≤ b.2)
        ((initialEvents ++ pre.map (fun e => ("processing", pollProgress e))) ++
          [("finalizing", 85)]) := by
      apply hc.append (List.chain'_singleton _)
      intro x hx y hy
      simp only [List.head?_cons, Option.mem_def, Option.some.injEq] at hy
      subst hy
      exact le_trans (hlast x hx) (by norm_num)
    show List.Chain' _ (((initialEvents ++ _) ++ [("finalizing", 85)]) ++ _)
    apply h85.append
    · rcases fetch with fmsg | failedFiles | result <;>
        norm_num [List.chain'_cons]
    · intro x hx y hy
      rw [List.getLast?_concat] at hx
      simp only [Option.mem_def, Option.some.injEq] at hx
      subst hx
      rcases fetch with fmsg | failedFiles | result
      · simp at hy
      · simp at hy
      · simp only [List.head?_cons, Option.mem_def, Option.some.injEq] at hy
        subst hy
        norm_num

/-- C8 witness: the within-job monotonicity at a successful scenario with
two recognized in-progress polls. -/
theorem C8_batch_monotone_witness :
    (List.Chain' (· ≤ ·) (preOf monoScenario) ∧ ∀ e ∈ preOf monoScenario, (0 : ℚ) ≤ e) ∧
    List.Chain' (fun a b : String × ℤ => a.2 ≤ b.2) (batchEvents monoScenario) := by
  have h1 : List.Chain' (· ≤ ·) (preOf monoScenario) := by
    norm_num [monoScenario, preOf, List.chain'_cons]
  have h2 : ∀ e ∈ preOf monoScenario, (0 : ℚ) ≤ e := by
    intro e he
    simp [monoScenario, preOf] at he
    rcases he with rfl | rfl <;> norm_num
  exact ⟨⟨h1, h2⟩, C8_batch_monotone monoScenario h1 h2⟩

/-! ### C2 -/

theorem renumber_length (l : List Segment) : (renumber l).length = l.length := by
  simp [renumber]

theorem renumber_map_id (l : List Segment) :
    (renumber l).map Segment.id = (List.range l.length).map (fun i => toString (i + 1)) := by
  unfold renumber
  rw [List.map_map]
  have h : (Segment.id ∘ fun p : ℕ × Segment => { p.2 with id := toString (p.1 + 1) }) =
      ((fun i => toString (i + 1)) ∘ Prod.fst) := rfl
  rw [h, List.enum_eq_zip_range, ← List.map_map, List.map_fst_zip _ _ (by simp)]

theorem renumber_map_speaker (l : List Segment) :
    (renumber l).map Segment.speaker = l.map Segment.speaker := by
  unfold renumber
  rw [List.map_map]
  have h : (Segment.speaker ∘ fun p : ℕ × Segment => { p.2 with id := toString (p.1 + 1) }) =
      (Segment.speaker ∘ Prod.snd) := rfl
  rw [h, ← List.map_map, List.enum_map_snd]

/-- One coalescing step preserves the loop invariant: the flushed segments
have pairwise-distinct adjacent speakers; an unset current speaker means
nothing flushed yet; a set current speaker is non-empty (for non-empty
input speakers) and differs from the last flushed segment's speaker. -/
theorem coalesceStep_inv (st : CoalesceState) (seg : Segment) (hseg : seg.speaker ≠ "")
    (h1 : List.Chain' (fun a b => a.speaker ≠ b.speaker) st.final_segments)
    (h2 : st.current_speaker = none → st.final_segments = [])
    (h3 : ∀ sp, st.current_speaker = some sp → sp ≠ "" ∧
      ∀ x ∈ st.final_segments.getLast?, x.speaker ≠ sp) :
    List.Chain' (fun a b => a.speaker ≠ b.speaker) (coalesceStep st seg).final_segments ∧
    ((coalesceStep st seg).current_speaker = none →
      (coalesceStep st seg).final_segments = []) ∧
    (∀ sp, (coalesceStep st seg).current_speaker = some sp → sp ≠ "" ∧
      ∀ x ∈ (coalesceStep st seg).final_segments.getLast?, x.speaker ≠ sp) := by
  unfold coalesceStep
  by_cases hc : some seg.speaker = st.current_speaker
  · rw [if_pos hc]
    exact ⟨h1, h2, h3⟩
  · rw [if_neg hc]
    refine ⟨?_, ?_, ?_⟩
    · show List.Chain' (fun a b => a.speaker ≠ b.speaker) (flushPending st)
      unfold flushPending
      cases hcs : st.current_speaker with
      | none => exact h1
      | some sp =>
          obtain ⟨hspne, hlast⟩ := h3 sp hcs
          show List.Chain' (fun a b => a.speaker ≠ b.speaker)
            (if sp ≠ "" then st.final_segments ++ [flushedSegment st sp]
             else st.final_segments)
          rw [if_pos hspne]
          refine h1.append (List.chain'_singleton _) ?_
          intro x hx y hy
          simp only [List.head?_cons, Option.mem_def, Option.some.injEq] at hy
          subst hy
          exact hlast x hx
    · intro h
      simp at h
    · intro sp hsp
      simp only [Option.some.injEq] at hsp
      refine ⟨by rw [← hsp]; exact hseg, ?_⟩
      intro x hx
      show x.speaker ≠ sp
      simp only at hx
      unfold flushPending at hx
      cases hcs : st.current_speaker with
      | none =>
          rw [hcs] at hx
          rw [h2 hcs] at hx
          simp at hx
      | some sp2 =>
          obtain ⟨hsp2ne, hlast⟩ := h3 sp2 hcs
          rw [hcs] at hx
          have hx2 : x ∈ (if sp2 ≠ "" then st.final_segments ++ [flushedSegment st sp2]
              else st.final_segments).getLast? := hx
          clear hx
          rename' hx2 => hx
          rw [if_pos hsp2ne, List.getLast?_concat] at hx
          simp only [Option.mem_def, Option.some.injEq] at hx
          subst hx
          show (flushedSegment st sp2).speaker ≠ sp
          have hsp2 : (flushedSegment st sp2).speaker = sp2 := rfl
          rw [hsp2, ← hsp]
          intro he
          exact hc (by rw [hcs, he])

/-- The coalescing fold preserves the invariant along any segment list with
non-empty speakers. -/
theorem coalesce_fold_inv :
    ∀ (m : List Segment) (st : CoalesceState), (∀ s ∈ m, s.speaker ≠ "") →
      List.Chain' (fun a b => a.speaker ≠ b.speaker) st.final_segments →
      (st.current_speaker = none → st.final_segments = []) →
      (∀ sp, st.current_speaker = some sp → sp ≠ "" ∧
        ∀ x ∈ st.final_segments.getLast?, x.speaker ≠ sp) →
      List.Chain' (fun a b => a.speaker ≠ b.speaker)
        (m.foldl coalesceStep st).final_segments ∧
      ((m.foldl coalesceStep st).current_speaker = none →
        (m.foldl coalesceStep st).final_segments = []) ∧
      (∀ sp, (m.foldl coalesceStep st).current_speaker = some sp → sp ≠ "" ∧
        ∀ x ∈ (m.foldl coalesceStep st).final_segments.getLast?, x.speaker ≠ sp) := by
  intro m
  induction m with
  | nil =>
      intro st _ h1 h2 h3
      exact ⟨h1, h2, h3⟩
  | cons seg rest ih =>
      intro st hm h1 h2 h3
      rw [List.foldl_cons]
      obtain ⟨g1, g2, g3⟩ := coalesceStep_inv st seg
        (hm seg (List.mem_cons_self seg rest)) h1 h2 h3
      exact ih (coalesceStep st seg) (fun s hs => hm s (List.mem_cons_of_mem _ hs)) g1 g2 g3

/-- The coalescing pass never leaves two adjacent segments with the same
speaker, provided every input speaker is a non-empty string. -/
theorem coalesce_chain (m : List Segment) (hm : ∀ s ∈ m, s.speaker ≠ "") :
    List.Chain' (fun a b => a.speaker ≠ b.speaker) (coalesce m) := by
  unfold coalesce
  obtain ⟨h1, h2, h3⟩ := coalesce_fold_inv m ⟨[], none, [], 0, 0⟩ hm List.chain'_nil
    (fun _ => rfl) (fun sp h => by simp at h)
  unfold flushPending
  cases hcs : (m.foldl coalesceStep ⟨[], none, [], 0, 0⟩).current_speaker with
  | none => exact h1
  | some sp =>
      obtain ⟨hspne, hlast⟩ := h3 sp hcs
      show List.Chain' (fun a b => a.speaker ≠ b.speaker)
        (if sp ≠ "" then
          (m.foldl coalesceStep ⟨[], none, [], 0, 0⟩).final_segments ++
            [flushedSegment (m.foldl coalesceStep ⟨[], none, [], 0, 0⟩) sp]
         else (m.foldl coalesceStep ⟨[], none, [], 0, 0⟩).final_segments)
      rw [if_pos hspne]
      refine h1.append (List.chain'_singleton _) ?_
      intro x hx y hy
      simp only [List.head?_cons, Option.mem_def, Option.some.injEq] at hy
      subst hy
      exact hlast x hx

theorem mem_dedupStep (os : ℚ) (acc : List Segment) (seg s : Segment)
    (h : s ∈ dedupStep os acc seg) : s ∈ acc ∨ s = seg := by
  unfold dedupStep at h
  split at h
  · exact Or.inl h
  · rcases List.mem_append.mp h with h1 | h1
    · exact Or.inl h1
    · exact Or.inr (List.mem_singleton.mp h1)

theorem mem_foldl_dedup (os : ℚ) :
    ∀ (chunk acc : List Segment) (s : Segment),
      s ∈ chunk.foldl (dedupStep os) acc → s ∈ acc ∨ s ∈ chunk := by
  intro chunk
  induction chunk with
  | nil =>
      intro acc s h
      exact Or.inl h
  | cons seg rest ih =>
      intro acc s h
      rw [List.foldl_cons] at h
      rcases ih (dedupStep os acc seg) s h with h1 | h1
      · rcases mem_dedupStep os acc seg s h1 with h2 | h2
        · exact Or.inl h2
        · exact Or.inr (h2 ▸ List.mem_cons_self seg rest)
      · exact Or.inr (List.mem_cons_of_mem _ h1)

theorem mem_processChunk (merged chunk : List Segment) (s : Segment)
    (h : s ∈ processChunk merged chunk) : s ∈ merged ∨ s ∈ chunk :=
  mem_foldl_dedup (lastEnd merged - CHUNK_OVERLAP) chunk merged s h

theorem mem_foldl_processChunk :
    ∀ (cs : List (List Segment)) (c : List Segment) (s : Segment),
      s ∈ cs.foldl processChunk c → s ∈ c ∨ ∃ ch ∈ cs, s ∈ ch := by
  intro cs
  induction cs with
  | nil =>
      intro c s h
      exact Or.inl h
  | cons ch rest ih =>
      intro c s h
      rw [List.foldl_cons] at h
      rcases ih (processChunk c ch) s h with h1 | ⟨ch2, hch2, hs⟩
      · rcases mem_processChunk c ch s h1 with h2 | h2
        · exact Or.inl h2
        · exact Or.inr ⟨ch, List.mem_cons_self ch rest, h2⟩
      · exact Or.inr ⟨ch2, List.mem_cons_of_mem _ hch2, hs⟩

/-- C2 counterexample: a single-chunk input is returned verbatim by
`merge_overlapping_chunks`, so its segment ids are whatever the chunk
carried — here `"2"` — and not the sequential `"1"..."N"` the claim
asserts for every non-empty input. -/
theorem C2_counterexample :
    (merge_overlapping_chunks [[⟨"2", "Speaker 1", "00:00:00", "hi", 0, 1⟩]]).map
      Segment.id = ["2"] ∧ ("2" : String) ≠ "1" := by
  exact ⟨by with_unfolding_all decide, by decide⟩

/-- C2 (amended): for every input with at least two chunk lists in which
every segment carries a non-empty speaker label, the merged transcript has
ids exactly `"1"..."N"` in order (N = number of returned segments) and no
two adjacent segments share a speaker.  A single-chunk input is returned
verbatim (no renumbering or coalescing), and a segment with an empty
speaker label can leave two adjacent same-speaker segments, so both
restrictions are necessary. -/
theorem C2_merge_invariants (all : List (List Segment))
    (hlen : 2 ≤ all.length)
    (hsp : ∀ c ∈ all, ∀ s ∈ c, s.speaker ≠ "") :
    (merge_overlapping_chunks all).map Segment.id =
      (List.range (merge_overlapping_chunks all).length).map
        (fun i => toString (i + 1)) ∧
    List.Chain' (fun a b => a.speaker ≠ b.speaker) (merge_overlapping_chunks all) := by
  rcases all with - | ⟨c1, - | ⟨c2, rest⟩⟩
  · simp at hlen
  · simp at hlen
  · have hmerge : merge_overlapping_chunks (c1 :: c2 :: rest) =
        renumber (coalesce ((c2 :: rest).foldl processChunk c1)) := rfl
    rw [hmerge]
    have hmsp : ∀ s ∈ (c2 :: rest).foldl processChunk c1, s.speaker ≠ "" := by
      intro s hs
      rcases mem_foldl_processChunk (c2 :: rest) c1 s hs with h | ⟨ch, hch, hsch⟩
      · exact hsp c1 (List.mem_cons_self _ _) s h
      · exact hsp ch (List.mem_cons_of_mem _ hch) s hsch
    constructor
    · rw [renumber_map_id, renumber_length]
    · have hch := coalesce_chain _ hmsp
      have h1 : List.Chain' Ne
          ((coalesce ((c2 :: rest).foldl processChunk c1)).map Segment.speaker) :=
        (List.chain'_map _).2 hch
      rw [← renumber_map_speaker] at h1
      exact (List.chain'_map _).1 h1

/-- C2 witness: the amended invariants at a concrete two-chunk input. -/
theorem C2_merge_invariants_witness :
    (2 ≤ ([[⟨"9", "Speaker 1", "00:00:00", "hello", 0, 10⟩],
           [⟨"9", "Speaker 2", "00:54:30", "world", 3270, 3280⟩]] :
        List (List Segment)).length) ∧
    ((merge_overlapping_chunks [[⟨"9", "Speaker 1", "00:00:00", "hello", 0, 10⟩],
        [⟨"9", "Speaker 2", "00:54:30", "world", 3270, 3280⟩]]).map Segment.id =
      (List.range (merge_overlapping_chunks [[⟨"9", "Speaker 1", "00:00:00", "hello", 0, 10⟩],
        [⟨"9", "Speaker 2", "00:54:30", "world", 3270, 3280⟩]]).length).map
        (fun i => toString (i + 1)) ∧
     List.Chain' (fun a b => a.speaker ≠ b.speaker)
       (merge_overlapping_chunks [[⟨"9", "Speaker 1", "00:00:00", "hello", 0, 10⟩],
         [⟨"9", "Speaker 2", "00:54:30", "world", 3270, 3280⟩]])) :=
  ⟨by decide,
   C2_merge_invariants _ (by decide) (by decide)⟩

end Transcription
